import Mathlib

/-!
Verification of the narrator-rules migration scripts.

The repository's four scripts (`update_captures.py`, `update_narrator_rules.py`,
`update_narrator_rules_v2.py`, `fix_filename_captures.py`) each load the single
JSON configuration document `narrator/narrator-rules.json`, mutate it in memory
and write it back with one trailing `json.dump`.  We embed the document shape
and every transformation the scripts perform as pure Lean functions, and prove
or refute the specification's claims about them.
-/

namespace Narrator

/-- A `Capture` is a JSON object holding a mandatory `inputKey` string, the
optional boolean fields `parseFileType` and `computed` (absent is modelled as
`none`, distinct from `some false`), and any other ad-hoc fields, modelled as
a key/value list (`extra`). -/
structure Capture where
  inputKey : String
  parseFileType : Option Bool
  computed : Option Bool
  extra : List (String × String)
deriving DecidableEq, Repr

/-- A `Rule` is a JSON object with an optional `default` template string, an
optional `captures` array (a rule may lack the key entirely, modelled as
`none`), and any other fields kept opaque in `extra`. -/
structure Rule where
  default : Option String
  captures : Option (List Capture)
  extra : List (String × String)
deriving DecidableEq, Repr

/-- The whole configuration document: the ordered `rules` mapping, the
optional `mcpRules` mapping, and the optional deprecated `extensionTemplates`
top-level section (kept opaque as a string blob). -/
structure Document where
  rules : List (String × Rule)
  mcpRules : Option (List (String × Rule))
  extensionTemplates : Option String
deriving DecidableEq, Repr

/-- Python-dict lookup on an ordered association list: first binding wins. -/
def lookupRule (rs : List (String × Rule)) (name : String) : Option Rule :=
  match rs with
  | [] => none
  | (k, r) :: rest => if k = name then some r else lookupRule rest name

/-- In-place update of the binding for `name` (Python's
`data[...][name][field] = v` pattern); bindings for other names are kept. -/
def updateRule (rs : List (String × Rule)) (name : String) (f : Rule → Rule) :
    List (String × Rule) :=
  match rs with
  | [] => []
  | (k, r) :: rest =>
    if k = name then (k, f r) :: updateRule rest name f
    else (k, r) :: updateRule rest name f

/-! ### `update_captures.py` — strip every capture down to `inputKey` -/

/-- The rebuild in `update_captures.py` lines 12-16: for each capture a fresh
object `{'inputKey': capture['inputKey']}` is built, so every other field
(including `parseFileType` and `computed`) is dropped. -/
def stripCapture (c : Capture) : Capture :=
  { inputKey := c.inputKey, parseFileType := none, computed := none, extra := [] }

/-- Lines 10-17: the `captures` list is rebuilt only when the rule has a
`captures` key; a rule without one is left untouched. -/
def stripRule (r : Rule) : Rule :=
  match r.captures with
  | none => r
  | some cs => { r with captures := some (cs.map stripCapture) }

/-- Lines 9-17: the strip loop runs over every rule of `data['rules']`. -/
def stripDoc (d : Document) : Document :=
  { d with rules := d.rules.map fun p => (p.1, stripRule p.2) }

/-! ### `update_narrator_rules.py` — delete MCP-prefixed rules -/

/-- Line 16: the predicate selecting the rules to remove —
`key.startswith('mcp__serena__') or key.startswith('mcp__ide__')`, embedded
as a character-list prefix test (semantically identical to the string prefix
test and reducible by the kernel). -/
def isMcpName (k : String) : Bool :=
  List.isPrefixOf "mcp__serena__".data k.data || List.isPrefixOf "mcp__ide__".data k.data

/-- Lines 14-17: the keys collected into `rules_to_remove`, in rule order. -/
def mcpMatchedNames (d : Document) : List String :=
  (d.rules.map Prod.fst).filter isMcpName

/-- Lines 19-20: the matched keys are deleted from `data['rules']`; nothing
else in the document is touched — in particular `mcpRules` is not written
(the script's comment says the section "is already added"). -/
def removeMcpRules (d : Document) : Document :=
  { d with rules := d.rules.filter fun p => !(isMcpName p.1) }

/-- Line 26: the only observable report, `len(rules_to_remove)`. -/
def removeMcpCount (d : Document) : Nat :=
  (mcpMatchedNames d).length

/-- Line 26: the printed message carries exactly the count, not the names. -/
def removeMcpMessage (d : Document) : String :=
  "Removed " ++ toString (removeMcpCount d) ++ " MCP tool entries from rules section"

/-! ### `update_narrator_rules_v2.py` — drop section, set defaults, append captures -/

/-- Lines 9-10: `if 'extensionTemplates' in data: del data['extensionTemplates']`. -/
def dropExtensionTemplates (d : Document) : Document :=
  match d.extensionTemplates with
  | some _ => { d with extensionTemplates := none }
  | none => d

/-- Errors a script run can raise before its final write: a Python `KeyError`
from indexing a missing rule. -/
inductive MigErr where
  | keyError (key : String)
deriving DecidableEq, Repr

/-- The Python access pattern `data['rules'][name]...` shared by every rule
edit of the v2 script: raises `KeyError` when the rule is absent, otherwise
rewrites the rule's binding in place. -/
def modifyRule (name : String) (f : Rule → Rule) (d : Document) :
    Except MigErr Document :=
  match lookupRule d.rules name with
  | none => .error (.keyError name)
  | some _ => .ok { d with rules := updateRule d.rules name f }

/-- `data['rules'][name]['default'] = tmpl` — raises `KeyError` when the rule
is absent, otherwise overwrites the `default` field. -/
def setDefault (name tmpl : String) (d : Document) : Except MigErr Document :=
  modifyRule name (fun r => { r with default := some tmpl }) d

/-- The v2 append pattern (e.g. lines 23-28): `if 'captures' not in rule:
rule['captures'] = []` followed by an unconditional `append` — no duplicate
check of any kind is performed. -/
def addCaptureAppend (name : String) (c : Capture) (d : Document) :
    Except MigErr Document :=
  modifyRule name (fun r => { r with captures := some (r.captures.getD [] ++ [c]) }) d

/-- The overwrite pattern of `fix_filename_captures.py` and v2's Read block
(lines 14-19): `rule['captures'] = [...]` replaces the whole list. -/
def setCapturesOp (name : String) (cs : List Capture) (d : Document) :
    Except MigErr Document :=
  modifyRule name (fun r => { r with captures := some cs }) d

/-! ### Batches: each script is a sequence of operations and one trailing write -/

/-- The operations the scripts are built from. -/
inductive MigOp where
  | strip
  | removeMcp
  | dropExt
  | setDefault (name tmpl : String)
  | addCapture (name : String) (c : Capture)
  | setCaptures (name : String) (cs : List Capture)
deriving DecidableEq, Repr

def applyOp : MigOp → Document → Except MigErr Document
  | .strip, d => .ok (stripDoc d)
  | .removeMcp, d => .ok (removeMcpRules d)
  | .dropExt, d => .ok (dropExtensionTemplates d)
  | .setDefault n t, d => setDefault n t d
  | .addCapture n c, d => addCaptureAppend n c d
  | .setCaptures n cs, d => setCapturesOp n cs d

/-- Sequential in-memory application; a raised `KeyError` aborts the run. -/
def runBatch (ops : List MigOp) (d : Document) : Except MigErr Document :=
  match ops with
  | [] => .ok d
  | op :: rest =>
    match applyOp op d with
    | .ok d' => runBatch rest d'
    | .error e => .error e

/-- The stored file after a script run: every script performs its single
`json.dump` as the last statement, so on any error the file still holds the
document from before the run. -/
def persistedAfter (stored : Document) (ops : List MigOp) : Document :=
  match runBatch ops stored with
  | .ok d => d
  | .error _ => stored

/-! ### Sample documents used to instantiate and refute claims -/

/-- Scenario C's rule: a capture carrying `parseFileType` and an ad-hoc
`legacyFlag` field, `computed` absent. -/
def ruleReadLegacy : Rule :=
  { default := some "reading"
    captures := some [{ inputKey := "file_path", parseFileType := some true,
                        computed := none, extra := [("legacyFlag", "x")] }]
    extra := [] }

/-- Scenario C's document. -/
def docScenC : Document :=
  { rules := [("Read", ruleReadLegacy)], mcpRules := none, extensionTemplates := none }

/-! ### Basic lemmas about lookup and update -/

theorem lookupRule_map_strip (rs : List (String × Rule)) (name : String) :
    lookupRule (rs.map fun p => (p.1, stripRule p.2)) name =
      (lookupRule rs name).map stripRule := by
  induction rs with
  | nil => rfl
  | cons p rest ih =>
    obtain ⟨k, r⟩ := p
    by_cases h : k = name <;> simp [lookupRule, h, ih]

theorem lookupRule_update (rs : List (String × Rule)) (name : String) (f : Rule → Rule) :
    lookupRule (updateRule rs name f) name = (lookupRule rs name).map f := by
  induction rs with
  | nil => rfl
  | cons p rest ih =>
    obtain ⟨k, r⟩ := p
    by_cases h : k = name <;> simp [updateRule, lookupRule, h, ih]

theorem stripCapture_idem (c : Capture) : stripCapture (stripCapture c) = stripCapture c := rfl

theorem stripRule_idem (r : Rule) : stripRule (stripRule r) = stripRule r := by
  match h : r.captures with
  | none => simp [stripRule, h]
  | some cs =>
    simp [stripRule, h, List.map_map, Function.comp_def]
    exact fun a _ => rfl

theorem stripDoc_idem (d : Document) : stripDoc (stripDoc d) = stripDoc d := by
  simp only [stripDoc, List.map_map]
  congr 1
  apply List.map_congr_left
  intro p _
  simp [Function.comp_def, stripRule_idem]

theorem dropExt_ext_none (d : Document) :
    (dropExtensionTemplates d).extensionTemplates = none := by
  match h : d.extensionTemplates with
  | none => simp [dropExtensionTemplates, h]
  | some s => simp [dropExtensionTemplates, h]

theorem dropExt_idem (d : Document) :
    dropExtensionTemplates (dropExtensionTemplates d) = dropExtensionTemplates d := by
  match h : d.extensionTemplates with
  | none => simp [dropExtensionTemplates, h]
  | some s => simp [dropExtensionTemplates, h]

/-! ### Claims C1, C6, C7, C9 -/

/-- C1 (counterexample): on Scenario C's document, `StripCaptureFields` — as
implemented by `update_captures.py` — does NOT keep `parseFileType`; the
capture `\x7binputKey: "file_path", parseFileType: true, legacyFlag: "x"\x7d`
becomes `\x7binputKey: "file_path"\x7d`, not
`\x7binputKey: "file_path", parseFileType: true\x7d` as the claim states. -/
theorem stripDoc_drops_parseFileType :
    lookupRule (stripDoc docScenC).rules "Read" =
      some { default := some "reading"
             captures := some [{ inputKey := "file_path", parseFileType := none,
                                 computed := none, extra := [] }]
             extra := [] } ∧
    lookupRule (stripDoc docScenC).rules "Read" ≠
      some { default := some "reading"
             captures := some [{ inputKey := "file_path", parseFileType := some true,
                                 computed := none, extra := [] }]
             extra := [] } := by
  constructor <;> decide

/-- C1 (amended): `StripCaptureFields` rewrites every capture of every rule to
retain only `inputKey`; `parseFileType` and `computed` are dropped along with
every other field. -/
theorem stripDoc_keeps_only_inputKey (d : Document) (name : String) (r : Rule)
    (cs : List Capture) (h : lookupRule d.rules name = some r)
    (hc : r.captures = some cs) :
    lookupRule (stripDoc d).rules name =
      some { r with captures := some (cs.map fun c =>
        { inputKey := c.inputKey, parseFileType := none, computed := none, extra := [] }) } := by
  show lookupRule (d.rules.map fun p => (p.1, stripRule p.2)) name = _
  rw [lookupRule_map_strip, h]
  simp [stripRule, hc, stripCapture]

/-- C1 (witness for the amended theorem): instantiated on Scenario C's
document. -/
theorem stripDoc_keeps_only_inputKey_witness :
    lookupRule (stripDoc docScenC).rules "Read" =
      some { ruleReadLegacy with captures := some [{ inputKey := "file_path", parseFileType := none, computed := none, extra := [] }] } :=
  stripDoc_keeps_only_inputKey docScenC "Read" ruleReadLegacy _ rfl rfl

/-- C6: both `StripCaptureFields` (as implemented: keep only `inputKey`) and
`DropSection("extensionTemplates")` are idempotent — applying either twice
yields the same document as applying it once. -/
theorem strip_and_dropSection_idempotent (d : Document) :
    stripDoc (stripDoc d) = stripDoc d ∧
    dropExtensionTemplates (dropExtensionTemplates d) = dropExtensionTemplates d :=
  ⟨stripDoc_idem d, dropExt_idem d⟩

/-- C7: `DropSection("extensionTemplates")` leaves the section absent, is a
no-op on a document where the section is already absent (no error is possible:
the delete is guarded), and a second application changes nothing. -/
theorem dropSection_absent_noop (d : Document) :
    (dropExtensionTemplates d).extensionTemplates = none ∧
    dropExtensionTemplates { d with extensionTemplates := none } =
      { d with extensionTemplates := none } ∧
    dropExtensionTemplates (dropExtensionTemplates d) = dropExtensionTemplates d :=
  ⟨dropExt_ext_none d, by simp [dropExtensionTemplates], dropExt_idem d⟩

/-- C9: the strip transform preserves the rule names and their order, leaves
any rule without a `captures` key entirely unchanged, and rewrites a present
`captures` list elementwise by `List.map` — so the number and relative order
of captures in each rule are preserved. -/
theorem stripDoc_preserves_shape (d : Document) :
    ((stripDoc d).rules = d.rules.map fun p => (p.1, stripRule p.2)) ∧
    (∀ r : Rule, r.captures = none → stripRule r = r) ∧
    (∀ (r : Rule) (cs : List Capture), r.captures = some cs →
      (stripRule r).captures = some (cs.map stripCapture)) ∧
    (∀ r : Rule, ((stripRule r).captures).map List.length = (r.captures).map List.length) := by
  refine ⟨rfl, ?_, ?_, ?_⟩
  · intro r h; simp [stripRule, h]
  · intro r cs h; simp [stripRule, h]
  · intro r
    match h : r.captures with
    | none => simp [stripRule, h]
    | some cs => simp [stripRule, h]

/-- C9 (witness): the shape-preservation facts instantiated on Scenario C's
document and on a concrete rule with no `captures` key. -/
theorem stripDoc_preserves_shape_witness :
    stripRule { default := some "t", captures := none, extra := [("k", "v")] } =
      { default := some "t", captures := none, extra := [("k", "v")] } ∧
    (stripRule ruleReadLegacy).captures =
      some ([{ inputKey := "file_path", parseFileType := some true,
               computed := none, extra := [("legacyFlag", "x")] }].map stripCapture) :=
  ⟨(stripDoc_preserves_shape docScenC).2.1 _ rfl,
   (stripDoc_preserves_shape docScenC).2.2.1 ruleReadLegacy _ rfl⟩

/-! ### Claims C2 and C8 — what `update_narrator_rules.py` actually does -/

/-- Scenario D's MCP rule. -/
def ruleMcp : Rule := { default := some "mcp read", captures := none, extra := [] }

/-- Scenario D's document: the MCP rule sits in `rules`, `mcpRules` is empty. -/
def docScenD : Document :=
  { rules := [("mcp__serena__read_file", ruleMcp)], mcpRules := some [],
    extensionTemplates := none }

theorem lookupRule_filter_none (rs : List (String × Rule)) (n : String)
    (hn : isMcpName n = true) :
    lookupRule (rs.filter fun p => !(isMcpName p.1)) n = none := by
  induction rs with
  | nil => rfl
  | cons p rest ih =>
    obtain ⟨k, r⟩ := p
    cases hm : isMcpName k
    · rw [List.filter_cons_of_pos (by simp [hm])]
      have hk : k ≠ n := fun h => by rw [h, hn] at hm; cases hm
      simp [lookupRule, hk, ih]
    · rw [List.filter_cons_of_neg (by simp [hm])]
      exact ih

theorem lookupRule_filter_keep (rs : List (String × Rule)) (n : String)
    (hn : isMcpName n = false) :
    lookupRule (rs.filter fun p => !(isMcpName p.1)) n = lookupRule rs n := by
  induction rs with
  | nil => rfl
  | cons p rest ih =>
    obtain ⟨k, r⟩ := p
    cases hm : isMcpName k
    · rw [List.filter_cons_of_pos (by simp [hm])]
      by_cases hk : k = n
      · subst hk
        simp [lookupRule]
      · simp [lookupRule, hk, ih]
    · rw [List.filter_cons_of_neg (by simp [hm])]
      have hk : k ≠ n := fun h => by rw [h, hn] at hm; cases hm
      simp [lookupRule, hk, ih]

/-- C2 (counterexample): on Scenario D's document the script deletes
`mcp__serena__read_file` from `rules` but does NOT insert it into `mcpRules`
(`mcpRules` stays empty), contradicting the claim that the rule reappears
unchanged in the target section; the reported count is nevertheless 1. -/
theorem removeMcp_does_not_insert :
    lookupRule (removeMcpRules docScenD).rules "mcp__serena__read_file" = none ∧
    (removeMcpRules docScenD).mcpRules = some [] ∧
    lookupRule ((removeMcpRules docScenD).mcpRules.getD []) "mcp__serena__read_file" = none ∧
    removeMcpCount docScenD = 1 := by
  refine ⟨?_, rfl, rfl, ?_⟩ <;> decide

/-- C2 (amended): the relocation script only performs the removal half:
every rule whose name matches the MCP predicate disappears from `rules`,
every non-matching binding is looked up unchanged, and `mcpRules` is left
exactly as it was — matched rules are NOT inserted there (the script assumes
the target section was already populated by hand). -/
theorem removeMcp_removes_only (d : Document) (n : String) :
    (isMcpName n = true → lookupRule (removeMcpRules d).rules n = none) ∧
    (isMcpName n = false → lookupRule (removeMcpRules d).rules n = lookupRule d.rules n) ∧
    (removeMcpRules d).mcpRules = d.mcpRules ∧
    (removeMcpRules d).extensionTemplates = d.extensionTemplates :=
  ⟨fun hn => lookupRule_filter_none d.rules n hn,
   fun hn => lookupRule_filter_keep d.rules n hn, rfl, rfl⟩

/-- C2 (witness for the amended theorem): on Scenario D's document the MCP
rule is gone from `rules` and `mcpRules` is untouched. -/
theorem removeMcp_removes_only_witness :
    lookupRule (removeMcpRules docScenD).rules "mcp__serena__read_file" = none ∧
    (removeMcpRules docScenD).mcpRules = docScenD.mcpRules :=
  ⟨(removeMcp_removes_only docScenD "mcp__serena__read_file").1 (by decide),
   (removeMcp_removes_only docScenD "mcp__serena__read_file").2.2.1⟩

/-- Two single-rule documents whose matched MCP names differ. -/
def docMcpAlpha : Document :=
  { rules := [("mcp__serena__alpha", ruleMcp)], mcpRules := none, extensionTemplates := none }

def docMcpBeta : Document :=
  { rules := [("mcp__ide__beta", ruleMcp)], mcpRules := none, extensionTemplates := none }

/-- C8 (counterexample): the script's only report is
`"Removed <len> MCP tool entries from rules section"`.  Two documents with
different relocated-name lists produce the identical report, so the list of
relocated names is not part of the observable result, contradicting the
claim. -/
theorem removeMcp_report_lacks_names :
    removeMcpMessage docMcpAlpha = removeMcpMessage docMcpBeta ∧
    mcpMatchedNames docMcpAlpha ≠ mcpMatchedNames docMcpBeta := by
  refine ⟨?_, ?_⟩ <;> decide

theorem mcp_filter_partition (l : List (String × Rule)) :
    ((l.map Prod.fst).filter isMcpName).length +
      (l.filter fun p => !(isMcpName p.1)).length = l.length := by
  induction l with
  | nil => rfl
  | cons p rest ih =>
    obtain ⟨k, r⟩ := p
    cases hm : isMcpName k
    · rw [List.map_cons, List.filter_cons_of_neg (by simp [hm]),
          List.filter_cons_of_pos (by simp [hm])]
      simp only [List.length_cons]
      omega
    · rw [List.map_cons, List.filter_cons_of_pos (by simp [hm]),
          List.filter_cons_of_neg (by simp [hm])]
      simp only [List.length_cons]
      omega

theorem mcp_matched_empty_iff (l : List (String × Rule)) :
    ((l.map Prod.fst).filter isMcpName).length = 0 ↔
      (l.filter fun p => !(isMcpName p.1)) = l := by
  induction l with
  | nil => simp
  | cons p rest ih =>
    obtain ⟨k, r⟩ := p
    cases hm : isMcpName k
    · rw [List.map_cons, List.filter_cons_of_neg (by simp [hm]),
          List.filter_cons_of_pos (by simp [hm])]
      simp only [List.cons.injEq, true_and]
      exact ih
    · rw [List.map_cons, List.filter_cons_of_pos (by simp [hm]),
          List.filter_cons_of_neg (by simp [hm])]
      simp only [List.length_cons]
      constructor
      · intro h
        exact absurd h (by simp)
      · intro h
        have hlen := congrArg List.length h
        have hle := List.length_filter_le (fun p => !(isMcpName p.1)) rest
        simp at hlen
        omega

/-- C8 (amended): the operation reports only the count of removed rules, not
their names.  The count is accurate — it equals the number of bindings that
left `rules` — and a zero-match run is distinguishable from a non-zero one
because the reported count is 0 exactly when `rules` is unchanged. -/
theorem removeMcp_reports_count_only (d : Document) :
    removeMcpCount d + (removeMcpRules d).rules.length = d.rules.length ∧
    (removeMcpCount d = 0 ↔ (removeMcpRules d).rules = d.rules) :=
  ⟨mcp_filter_partition d.rules, mcp_matched_empty_iff d.rules⟩

/-- C8 (witness for the amended theorem): a document with no MCP rules
reports 0 and keeps its `rules` unchanged. -/
theorem removeMcp_reports_count_only_witness :
    (removeMcpRules docScenC).rules = docScenC.rules :=
  (removeMcp_reports_count_only docScenC).2.mp (by decide)

/-! ### Claims C3 and C10 — the v2 capture-append pattern -/

/-- The capture the v2 script appends to the Write rule (lines 25-28). -/
def captureFilePath : Capture :=
  { inputKey := "file_path", parseFileType := some true, computed := none, extra := [] }

/-- Scenario B's document: the Write rule already holds a `file_path`
capture. -/
def docScenB : Document :=
  { rules := [("Write", { default := some "writing",
                          captures := some [captureFilePath], extra := [] })]
    mcpRules := none, extensionTemplates := none }

/-- Scenario B's document after the v2 Write block runs once more: the
`file_path` capture now appears twice. -/
def docScenBDup : Document :=
  { rules := [("Write", { default := some "writing",
                          captures := some [captureFilePath, captureFilePath], extra := [] })]
    mcpRules := none, extensionTemplates := none }

/-- C3 (counterexample): re-applying the capture append with an `inputKey`
that is already present does not fail with `DuplicateCapture` — there is no
duplicate check at all.  The call succeeds, the document changes, and the
Write rule ends up with two captures sharing `inputKey = "file_path"`. -/
theorem addCapture_duplicate_inserts :
    addCaptureAppend "Write" captureFilePath docScenB = Except.ok docScenBDup ∧
    docScenBDup ≠ docScenB := by
  refine ⟨rfl, ?_⟩
  decide

/-- C3 (amended): the append is unconditional: whenever the named rule
exists, the call succeeds — even when a capture with the same `inputKey` is
already in the list — and the rule's captures become the old list with the
new capture at the end (a duplicate insert, never a `DuplicateCapture`
error). -/
theorem addCapture_appends_unconditionally (d : Document) (name : String)
    (c : Capture) (r : Rule) (h : lookupRule d.rules name = some r) :
    ∃ d', addCaptureAppend name c d = Except.ok d' ∧
      lookupRule d'.rules name =
        some { r with captures := some (r.captures.getD [] ++ [c]) } := by
  unfold addCaptureAppend modifyRule
  rw [h]
  refine ⟨_, rfl, ?_⟩
  rw [lookupRule_update, h]
  rfl

/-- C3 (witness for the amended theorem): on Scenario B's document the
duplicate append succeeds and yields two `file_path` captures. -/
theorem addCapture_appends_unconditionally_witness :
    ∃ d', addCaptureAppend "Write" captureFilePath docScenB = Except.ok d' ∧
      lookupRule d'.rules "Write" =
        some { default := some "writing",
               captures := some [captureFilePath, captureFilePath], extra := [] } :=
  addCapture_appends_unconditionally docScenB "Write" captureFilePath
    { default := some "writing", captures := some [captureFilePath], extra := [] } rfl

/-- C10: when the named rule exists but has no `captures` key, the append
pattern (`if 'captures' not in rule: rule['captures'] = []` followed by
`append`) succeeds and leaves the rule with the one-element captures list
`[c]`. -/
theorem addCapture_initializes_absent_captures (d : Document) (name : String)
    (c : Capture) (r : Rule) (h : lookupRule d.rules name = some r)
    (hc : r.captures = none) :
    ∃ d', addCaptureAppend name c d = Except.ok d' ∧
      lookupRule d'.rules name = some { r with captures := some [c] } := by
  unfold addCaptureAppend modifyRule
  rw [h]
  refine ⟨_, rfl, ?_⟩
  rw [lookupRule_update, h]
  simp [hc]

/-- C10 (witness): the v2 `mcp__serena__read_file` block applied to a rule
without a `captures` key yields exactly one capture. -/
theorem addCapture_initializes_absent_captures_witness :
    ∃ d', addCaptureAppend "mcp__serena__read_file" captureFilePath docScenD = Except.ok d' ∧
      lookupRule d'.rules "mcp__serena__read_file" =
        some { ruleMcp with captures := some [captureFilePath] } :=
  addCapture_initializes_absent_captures docScenD "mcp__serena__read_file"
    captureFilePath ruleMcp rfl rfl

/-! ### Claims C4 and C5 — invariants across batches, and atomicity -/

def ruleNames (d : Document) : List String := d.rules.map Prod.fst

def mcpNames (d : Document) : List String := (d.mcpRules.getD []).map Prod.fst

/-- Section 3 invariant, first half: no name occurs in both `rules` and
`mcpRules`. -/
def sectionsDisjointB (d : Document) : Bool :=
  (ruleNames d).all fun n => !((mcpNames d).contains n)

def nodupKeysB : List String → Bool
  | [] => true
  | x :: xs => !(xs.contains x) && nodupKeysB xs

/-- Section 3 invariant, second half, for one rule: all captures carry
distinct `inputKey`s. -/
def capturesUniqueB (r : Rule) : Bool :=
  match r.captures with
  | none => true
  | some cs => nodupKeysB (cs.map Capture.inputKey)

def docCapturesUniqueB (d : Document) : Bool :=
  (d.rules.all fun p => capturesUniqueB p.2) &&
    ((d.mcpRules.getD []).all fun p => capturesUniqueB p.2)

theorem updateRule_map_fst (rs : List (String × Rule)) (n : String) (f : Rule → Rule) :
    (updateRule rs n f).map Prod.fst = rs.map Prod.fst := by
  induction rs with
  | nil => rfl
  | cons p rest ih =>
    obtain ⟨k, r⟩ := p
    by_cases h : k = n <;> simp [updateRule, h, ih]

theorem dropExt_rules (d : Document) : (dropExtensionTemplates d).rules = d.rules := by
  match h : d.extensionTemplates with
  | none => simp [dropExtensionTemplates, h]
  | some s => simp [dropExtensionTemplates, h]

theorem dropExt_mcpRules (d : Document) :
    (dropExtensionTemplates d).mcpRules = d.mcpRules := by
  match h : d.extensionTemplates with
  | none => simp [dropExtensionTemplates, h]
  | some s => simp [dropExtensionTemplates, h]

theorem modifyRule_ok (name : String) (f : Rule → Rule) (d d' : Document)
    (h : modifyRule name f d = Except.ok d') :
    d' = { d with rules := updateRule d.rules name f } := by
  unfold modifyRule at h
  split at h
  · exact Except.noConfusion h
  · cases h; rfl

theorem stripDoc_ruleNames (d : Document) : ruleNames (stripDoc d) = ruleNames d := by
  unfold ruleNames stripDoc
  rw [List.map_map]
  rfl

theorem mem_map_fst_filter (l : List (String × Rule)) (q : String × Rule → Bool)
    (m : String) (hm : m ∈ (l.filter q).map Prod.fst) : m ∈ l.map Prod.fst := by
  rw [List.mem_map] at hm ⊢
  obtain ⟨p, hp, he⟩ := hm
  exact ⟨p, (List.mem_filter.mp hp).1, he⟩

theorem applyOp_mcpRules (op : MigOp) (d d' : Document)
    (h : applyOp op d = Except.ok d') : d'.mcpRules = d.mcpRules := by
  cases op with
  | strip => cases h; rfl
  | removeMcp => cases h; rfl
  | dropExt => cases h; exact dropExt_mcpRules d
  | setDefault n t => rw [modifyRule_ok n _ d d' h]
  | addCapture n c => rw [modifyRule_ok n _ d d' h]
  | setCaptures n cs => rw [modifyRule_ok n _ d d' h]

theorem applyOp_names (op : MigOp) (d d' : Document)
    (h : applyOp op d = Except.ok d') :
    ∀ m, m ∈ ruleNames d' → m ∈ ruleNames d := by
  cases op with
  | strip =>
    cases h
    intro m hm
    rw [stripDoc_ruleNames] at hm
    exact hm
  | removeMcp =>
    cases h
    intro m hm
    exact mem_map_fst_filter d.rules _ m hm
  | dropExt =>
    cases h
    intro m hm
    unfold ruleNames at hm ⊢
    rw [dropExt_rules] at hm
    exact hm
  | setDefault n t =>
    rw [modifyRule_ok n _ d d' h]
    intro m hm
    simp only [ruleNames] at hm ⊢
    rw [updateRule_map_fst] at hm
    exact hm
  | addCapture n c =>
    rw [modifyRule_ok n _ d d' h]
    intro m hm
    simp only [ruleNames] at hm ⊢
    rw [updateRule_map_fst] at hm
    exact hm
  | setCaptures n cs =>
    rw [modifyRule_ok n _ d d' h]
    intro m hm
    simp only [ruleNames] at hm ⊢
    rw [updateRule_map_fst] at hm
    exact hm

theorem applyOp_preserves_disjoint (op : MigOp) (d d' : Document)
    (h : applyOp op d = Except.ok d') (hd : sectionsDisjointB d = true) :
    sectionsDisjointB d' = true := by
  have hm : mcpNames d' = mcpNames d := by
    unfold mcpNames
    rw [applyOp_mcpRules op d d' h]
  have hs := applyOp_names op d d' h
  unfold sectionsDisjointB at hd ⊢
  rw [hm]
  rw [List.all_eq_true] at hd ⊢
  intro n hn
  exact hd n (hs n hn)

/-- C4 (amended, the half that holds): every operation leaves `mcpRules`
untouched and never adds a name to `rules`, so after any batch of operations
that runs to completion, no name appears in both `rules` and `mcpRules`
provided none did initially. -/
theorem runBatch_preserves_disjoint (ops : List MigOp) (d d' : Document)
    (h : runBatch ops d = Except.ok d') (hd : sectionsDisjointB d = true) :
    sectionsDisjointB d' = true := by
  induction ops generalizing d with
  | nil =>
    cases h
    exact hd
  | cons op rest ih =>
    unfold runBatch at h
    split at h
    next d1 hop => exact ih d1 h (applyOp_preserves_disjoint op d d1 hop hd)
    next e hop => exact Except.noConfusion h

/-- C4 (witness for the amended theorem): the MCP-removal batch keeps the
sections disjoint on Scenario D's document. -/
theorem runBatch_preserves_disjoint_witness :
    sectionsDisjointB (removeMcpRules docScenD) = true :=
  runBatch_preserves_disjoint [MigOp.removeMcp] docScenD (removeMcpRules docScenD)
    rfl (by decide)

/-- C4 (counterexample): a well-formed document (disjoint sections, unique
capture keys) run through the one-operation batch `[addCapture "Write"
captureFilePath]` — the v2 Write block — comes out with the Write rule
holding two captures that share `inputKey = "file_path"`: the uniqueness
invariant is NOT preserved by every operation sequence. -/
theorem migration_breaks_capture_uniqueness :
    sectionsDisjointB docScenB = true ∧
    docCapturesUniqueB docScenB = true ∧
    runBatch [MigOp.addCapture "Write" captureFilePath] docScenB =
      Except.ok docScenBDup ∧
    docCapturesUniqueB docScenBDup = false := by
  refine ⟨by decide, by decide, rfl, by decide⟩

/-- C5: each script applies its operations in memory and performs its single
`json.dump` only after all of them succeeded, so when operation k of a batch
raises, the stored document is exactly the one from before the run — no
prefix of the batch reaches storage. -/
theorem batch_error_preserves_store (stored : Document) (ops : List MigOp)
    (e : MigErr) (h : runBatch ops stored = Except.error e) :
    persistedAfter stored ops = stored := by
  unfold persistedAfter
  rw [h]

/-- C5 (witness): a two-operation batch whose first operation succeeds (it
drops the present `extensionTemplates` section) and whose second raises
`KeyError("Read")`; the persisted document still holds the section. -/
theorem batch_error_preserves_store_witness :
    runBatch [MigOp.dropExt, MigOp.setDefault "Read" "t"]
      { rules := [], mcpRules := none, extensionTemplates := some "blob" } =
      Except.error (MigErr.keyError "Read") ∧
    persistedAfter { rules := [], mcpRules := none, extensionTemplates := some "blob" }
      [MigOp.dropExt, MigOp.setDefault "Read" "t"] =
      { rules := [], mcpRules := none, extensionTemplates := some "blob" } :=
  ⟨rfl, batch_error_preserves_store _ _ (MigErr.keyError "Read") rfl⟩

end Narrator
